import Mathlib

/-!
Shallow embedding of `scratch/projects/mini-compiler-wip/generate_test_files.py`.

The script builds a binary-tree dependency graph over `N` node indices
(`deps[i] = [i*2+1, i*2+2]`, clipped to `< N`), emits one `.mini` module per
node (import declarations plus 2-4 functions), and finally emits an entry
module `main.mini` importing node 0.  The global seeded `random` stream is
modelled as an explicit stream of naturals threaded through the computation:
`random.randint(2, 4)`, `random.random() < 0.7` and `random.choice` over the
five-element operation menu each consume one value of the stream.
-/

namespace GenTestFiles

/-- The seeded pseudorandom source (`random.seed(42)` makes the global stream a
pure function of the seed): a stream of naturals together with a position. -/
structure RNG where
  stream : Nat → Nat
  pos : Nat

/-- Consume one value of the stream. -/
def RNG.next (r : RNG) : Nat × RNG :=
  (r.stream r.pos, ⟨r.stream, r.pos + 1⟩)

/-- `random.randint(2, 4)`: a value in `[2, 4]`. -/
def randint24 (r : RNG) : Nat × RNG :=
  let (v, r') := r.next
  (2 + v % 3, r')

/-- `random.random() < 0.7`: a Bernoulli draw from the stream. -/
def randLt70 (r : RNG) : Bool × RNG :=
  let (v, r') := r.next
  (decide (v % 10 < 7), r')

/-- `random.choice(ops)`: an index below 5 drawn from the stream. -/
def randChoice5 (r : RNG) : Nat × RNG :=
  let (v, r') := r.next
  (v % 5, r')

/-- `NUM_FILES` constant of the script. -/
def NUM_FILES : Nat := 10000

/-- `func_name(file_idx, func_idx)`. -/
def func_name (file_idx func_idx : Nat) : String :=
  "func_" ++ toString file_idx ++ "_" ++ toString func_idx

/-- The `ops` menu in `gen_function`. -/
def ops : List String := ["x + y", "x * y", "x - y", "x + y + 1", "x * 2 + y"]

/-- One call term `f"{a}.{f}(x, y)"` of the join in `gen_function`. -/
def callTerm (c : String × String) : String :=
  c.1 ++ "." ++ c.2 ++ "(x, y)"

/-- The function template of `gen_function` around a body expression. -/
def fnText (name expr : String) : String :=
  "fn " ++ name ++ "(x: i32, y: i32) i32 \x7b\n    return " ++ expr ++ ";\n\x7d\n"

/-- `gen_function(name, calls)`: an empty `calls` is Python's `None` branch. -/
def gen_function (name : String) (calls : List (String × String)) (r : RNG) :
    String × RNG :=
  if calls.isEmpty then
    let (k, r') := randChoice5 r
    (fnText name (ops.getD k "x + y"), r')
  else
    (fnText name (String.intercalate " + " (calls.map callTerm)), r)

/-- One entry of the `imports` list handed to `gen_file`:
`(dep_filename, f"m{dep_idx}", dep_idx)`. -/
structure Import where
  path : String
  aliasName : String
  depIdx : Nat
  deriving DecidableEq

/-- One import declaration line `f'import "{path}" as {alias};'`. -/
def importLine (imp : Import) : String :=
  "import \"" ++ imp.path ++ "\" as " ++ imp.aliasName ++ ";"

/-- The `calls` list built when a function calls all imports. -/
def allCalls (imports : List Import) : List (String × String) :=
  imports.map fun imp => (imp.aliasName, func_name imp.depIdx 0)

/-- One iteration of the function loop in `gen_file`: function 0 always calls
all imports; functions `i >= 1` do so with probability 0.7; without imports the
body is a pseudorandom pick from `ops`. -/
def genFunc (file_idx : Nat) (imports : List Import) (i : Nat) (r : RNG) :
    String × RNG :=
  let name := func_name file_idx i
  if imports.isEmpty then
    gen_function name [] r
  else if i = 0 then
    gen_function name (allCalls imports) r
  else
    let (b, r1) := randLt70 r
    if b then
      gen_function name (allCalls imports) r1
    else
      gen_function name [] r1

/-- The function loop of `gen_file` over the index list `range num_funcs`. -/
def genFuncs (file_idx : Nat) (imports : List Import) :
    List Nat → RNG → List String × RNG
  | [], r => ([], r)
  | i :: is, r =>
    let (s, r1) := genFunc file_idx imports i r
    let (rest, r2) := genFuncs file_idx imports is r1
    (s :: rest, r2)

/-- The `lines` list built by `gen_file` before the final join. -/
def gen_file_lines (file_idx : Nat) (imports : List Import) (num_funcs : Nat)
    (r : RNG) : List String × RNG :=
  let head := imports.map importLine ++ if imports.isEmpty then [] else [""]
  let (funcs, r') := genFuncs file_idx imports (List.range num_funcs) r
  (head ++ funcs, r')

/-- `gen_file(file_idx, imports, num_funcs)`. -/
def gen_file (file_idx : Nat) (imports : List Import) (num_funcs : Nat)
    (r : RNG) : String × RNG :=
  let (lines, r') := gen_file_lines file_idx imports num_funcs r
  (String.intercalate "\n" lines, r')

/-- The Graph Builder loop of `main`: node `i` depends on children `i*2+1` and
`i*2+2` whenever they are `< N`. -/
def deps (N i : Nat) : List Nat :=
  (if i * 2 + 1 < N then [i * 2 + 1] else []) ++
    (if i * 2 + 2 < N then [i * 2 + 2] else [])

/-- Zero padding of `f"{i:05d}"`. -/
def pad5 (n : Nat) : String :=
  let s := toString n
  String.mk (List.replicate (5 - s.length) '0') ++ s

/-- The relative path `f"files/file_{i:05d}.mini"` of node `i` below the
output directory. -/
def fileRelPath (i : Nat) : String := "files/file_" ++ pad5 i ++ ".mini"

/-- `os.path.basename` of a node's relative path, used as its import path. -/
def fileBasename (i : Nat) : String := "file_" ++ pad5 i ++ ".mini"

/-- The `imports` list `main` builds for node `i`. -/
def nodeImports (N i : Nat) : List Import :=
  (deps N i).map fun d => ⟨fileBasename d, "m" ++ toString d, d⟩

/-- The node-emission loop of `main`, returning `(path, content)` pairs.
`random.randint(2, 4)` is drawn before the body of `gen_file` runs, matching
Python's argument evaluation order. -/
def emitNodes (N : Nat) : List Nat → RNG → List (String × String) × RNG
  | [], r => ([], r)
  | i :: is, r =>
    let imports := nodeImports N i
    let (nf, r1) := randint24 r
    let (content, r2) := gen_file i imports nf r1
    let (rest, r3) := emitNodes N is r2
    ((fileRelPath i, content) :: rest, r3)

/-- The literal text of `main.mini`. -/
def main_content : String :=
  "import \"files/file_00000.mini\" as m0;\n\nfn main() i32 \x7b\n    return m0."
    ++ func_name 0 0 ++ "(1, 2);\n\x7d\n"

/-- The single import of the entry module `main.mini`. -/
def entryImports : List Import :=
  [⟨"files/file_00000.mini", "m0", 0⟩]

/-- `main()`: the full generation run, as the list of `(path, content)` files
written below the output directory, nodes in increasing index order followed
by the entry module. -/
def main (N : Nat) (r : RNG) : List (String × String) :=
  (emitNodes N (List.range N) r).1 ++ [("main.mini", main_content)]

/-- Reachability over import edges, starting at the entry module: `main.mini`
imports node 0 (which exists when `0 < N`), and node `i` imports every
`j ∈ deps N i`. -/
inductive Reachable (N : Nat) : Nat → Prop
  | entry : 0 < N → Reachable N 0
  | step {i j : Nat} : Reachable N i → j ∈ deps N i → Reachable N j

/-- Membership in the dependency list, solved arithmetically. -/
theorem mem_deps (N i j : Nat) :
    j ∈ deps N i ↔ (j = i * 2 + 1 ∨ j = i * 2 + 2) ∧ j < N := by
  unfold deps
  by_cases h1 : i * 2 + 1 < N <;> by_cases h2 : i * 2 + 2 < N <;>
    simp [h1, h2] <;> omega

/-- The set of dependency edges `(i, j)` over node indices `< N`. -/
def edgeFinset (N : Nat) : Finset (Nat × Nat) :=
  (Finset.range N ×ˢ Finset.range N).filter fun p => p.2 ∈ deps N p.1

/-- C1: for every node count `N` and node index `i`, the Graph Builder
produces `deps N i = [2*i+1, 2*i+2]` with elements `≥ N` removed, and for
`N = 3` this yields `{0 ↦ [1, 2], 1 ↦ [], 2 ↦ []}`. -/
theorem deps_eq_clipped_children :
    (∀ N i, deps N i = [2 * i + 1, 2 * i + 2].filter fun j => decide (j < N)) ∧
    deps 3 0 = [1, 2] ∧ deps 3 1 = [] ∧ deps 3 2 = [] := by
  refine ⟨fun N i => ?_, by decide, by decide, by decide⟩
  have h1 : 2 * i + 1 = i * 2 + 1 := by omega
  have h2 : 2 * i + 2 = i * 2 + 2 := by omega
  unfold deps
  rw [h1, h2]
  by_cases hc1 : i * 2 + 1 < N <;> by_cases hc2 : i * 2 + 2 < N <;>
    simp [List.filter, hc1, hc2]

/-- C2: for every node count `N > 0`, the reachability walk over import edges
starting at the entry module visits every node index in `[0, N)`. -/
theorem reachable_all (N : Nat) (hN : 0 < N) : ∀ i, i < N → Reachable N i := by
  intro i
  induction i using Nat.strong_induction_on with
  | _ i ih =>
    intro hi
    rcases Nat.eq_zero_or_pos i with h0 | h0
    · exact h0 ▸ Reachable.entry hN
    · have hp : (i - 1) / 2 < i := by omega
      exact Reachable.step (ih _ hp (by omega))
        ((mem_deps N ((i - 1) / 2) i).mpr (by omega))

/-- Witness for C2 at `N = 3`, `i = 2`. -/
theorem reachable_all_witness : 0 < 3 ∧ 2 < 3 ∧ Reachable 3 2 :=
  ⟨by decide, by decide, reachable_all 3 (by decide) 2 (by decide)⟩

/-- C3: every edge `(i, j)` the Graph Builder produces satisfies `j > i`. -/
theorem deps_target_gt (N i j : Nat) (h : j ∈ deps N i) : j > i := by
  rcases (mem_deps N i j).mp h with ⟨h1 | h1, _⟩ <;> omega

/-- Witness for C3 at `N = 3`, edge `(0, 1)`. -/
theorem deps_target_gt_witness : 1 ∈ deps 3 0 ∧ 1 > 0 :=
  ⟨by decide, deps_target_gt 3 0 1 (by decide)⟩

/-- The edge set is in bijection with the node indices `[1, N)` by mapping
each such node to its unique incoming edge. -/
theorem edgeFinset_card (N : Nat) : (edgeFinset N).card = N - 1 := by
  have hbij : (Finset.Ico 1 N).card = (edgeFinset N).card := by
    apply Finset.card_bij fun j _ => ((j - 1) / 2, j)
    · intro j hj
      rw [Finset.mem_Ico] at hj
      simp only [edgeFinset, Finset.mem_filter, Finset.mem_product,
        Finset.mem_range]
      refine ⟨⟨by omega, hj.2⟩, (mem_deps N ((j - 1) / 2) j).mpr (by omega)⟩
    · intro a _ b _ hab
      simpa using congrArg Prod.snd hab
    · intro p hp
      simp only [edgeFinset, Finset.mem_filter, Finset.mem_product,
        Finset.mem_range, mem_deps] at hp
      refine ⟨p.2, Finset.mem_Ico.mpr (by omega), ?_⟩
      have : (p.2 - 1) / 2 = p.1 := by omega
      rw [this]
  rw [← hbij, Nat.card_Ico]

/-- C10: for `N ≥ 1`, every node index `j ∈ [1, N)` has exactly one incoming
edge, from node `(j - 1) / 2`, and the edge set has exactly `N - 1` edges. -/
theorem tree_structure (N : Nat) (_hN : 0 < N) :
    (∀ j, 0 < j → j < N → ∀ i, (j ∈ deps N i ↔ i = (j - 1) / 2)) ∧
    (edgeFinset N).card = N - 1 := by
  refine ⟨fun j hj hjN i => ?_, edgeFinset_card N⟩
  rw [mem_deps]
  omega

/-- Witness for C10 at `N = 3`: node 2's unique parent is node 0 and the edge
count is 2. -/
theorem tree_structure_witness :
    0 < 3 ∧ (2 ∈ deps 3 0 ↔ 0 = (2 - 1) / 2) ∧ (edgeFinset 3).card = 3 - 1 :=
  ⟨by decide, (tree_structure 3 (by decide)).1 2 (by decide) (by decide) 0,
    (tree_structure 3 (by decide)).2⟩

/-- With a nonempty import list, the loop iteration for function 0 takes the
always-call branch and consumes no randomness. -/
theorem genFuncs_zero_cons (file_idx : Nat) (imports : List Import)
    (l : List Nat) (r : RNG) (h : imports ≠ []) :
    genFuncs file_idx imports (0 :: l) r =
      (fnText (func_name file_idx 0)
          (String.intercalate " + " ((allCalls imports).map callTerm)) ::
        (genFuncs file_idx imports l r).1,
       (genFuncs file_idx imports l r).2) := by
  have hne : imports.isEmpty = false := by
    simp [List.isEmpty_iff, h]
  have hcalls : (allCalls imports).isEmpty = false := by
    simp [allCalls, List.isEmpty_iff, h]
  simp [genFuncs, genFunc, gen_function, hne, hcalls]

/-- C4: for every node with at least one dependency (and at least one
function), the module's lines are its import declarations, a blank line, and
then function 0, whose body is the sum of exactly one call term per
dependency, in order, each through the dependency's alias, targeting that
dependency's function 0 and passing `(x, y)` unchanged. -/
theorem function0_calls_all_deps (file_idx : Nat) (imports : List Import)
    (num_funcs : Nat) (r : RNG) (h1 : imports ≠ []) (h2 : 1 ≤ num_funcs) :
    ∃ rest r',
      gen_file_lines file_idx imports num_funcs r =
        (imports.map importLine ++ [""] ++
          (fnText (func_name file_idx 0)
              (String.intercalate " + " (imports.map fun imp =>
                imp.aliasName ++ "." ++ func_name imp.depIdx 0 ++ "(x, y)")) ::
            rest), r') := by
  obtain ⟨k, rfl⟩ : ∃ k, num_funcs = k + 1 := ⟨num_funcs - 1, by omega⟩
  have hne : imports.isEmpty = false := by
    simp [List.isEmpty_iff, h1]
  have hr : List.range (k + 1) = 0 :: List.map Nat.succ (List.range k) :=
    List.range_succ_eq_map k
  have hmap : (allCalls imports).map callTerm =
      imports.map fun imp =>
        imp.aliasName ++ "." ++ func_name imp.depIdx 0 ++ "(x, y)" := by
    simp [allCalls, callTerm, List.map_map]
  refine ⟨(genFuncs file_idx imports (List.map Nat.succ (List.range k)) r).1,
    (genFuncs file_idx imports (List.map Nat.succ (List.range k)) r).2, ?_⟩
  rw [gen_file_lines]
  rw [hr, genFuncs_zero_cons file_idx imports _ r h1, hmap]
  simp [hne]

/-- Witness for C4 at node 0 of the `N = 3` corpus. -/
theorem function0_calls_all_deps_witness :
    nodeImports 3 0 ≠ [] ∧ 1 ≤ 2 ∧
    ∃ rest r',
      gen_file_lines 0 (nodeImports 3 0) 2 ⟨fun _ => 0, 0⟩ =
        ((nodeImports 3 0).map importLine ++ [""] ++
          (fnText (func_name 0 0)
              (String.intercalate " + " ((nodeImports 3 0).map fun imp =>
                imp.aliasName ++ "." ++ func_name imp.depIdx 0 ++ "(x, y)")) ::
            rest), r') :=
  ⟨by decide, by decide,
    function0_calls_all_deps 0 (nodeImports 3 0) 2 ⟨fun _ => 0, 0⟩
      (by decide) (by decide)⟩

/-- C5 counterexample: for a node with no dependencies, the function-0 body
depends on the pseudorandom stream — two different streams yield different
module text, so the body is not one fixed expression. -/
theorem function0_leaf_not_fixed :
    (gen_file_lines 1 [] 1 ⟨fun _ => 0, 0⟩).1 ≠
      (gen_file_lines 1 [] 1 ⟨fun _ => 1, 0⟩).1 := by
  decide

/-- C5 amended: for every node with no dependencies, the function-0 body is an
arithmetic expression over the two parameters drawn pseudorandomly from the
fixed five-element menu `ops`; it is not the same expression for every seed. -/
theorem function0_leaf_from_menu (file_idx num_funcs : Nat) (r : RNG)
    (h : 1 ≤ num_funcs) :
    ∃ e rest r', e ∈ ops ∧
      gen_file_lines file_idx [] num_funcs r =
        (fnText (func_name file_idx 0) e :: rest, r') := by
  obtain ⟨k, rfl⟩ : ∃ k, num_funcs = k + 1 := ⟨num_funcs - 1, by omega⟩
  have hr : List.range (k + 1) = 0 :: List.map Nat.succ (List.range k) :=
    List.range_succ_eq_map k
  have hlt : r.stream r.pos % 5 < 5 := Nat.mod_lt _ (by omega)
  refine ⟨ops.getD (r.stream r.pos % 5) "x + y",
    (genFuncs file_idx [] (List.map Nat.succ (List.range k))
      ⟨r.stream, r.pos + 1⟩).1,
    (genFuncs file_idx [] (List.map Nat.succ (List.range k))
      ⟨r.stream, r.pos + 1⟩).2, ?_, ?_⟩
  · rw [List.getD_eq_getElem ops "x + y" (by simpa [ops] using hlt)]
    exact List.getElem_mem _
  · rw [gen_file_lines, hr]
    simp [genFuncs, genFunc, gen_function, randChoice5, RNG.next]

/-- Witness for C5 (amended) at node 1, stream constantly 0. -/
theorem function0_leaf_from_menu_witness :
    1 ≤ 2 ∧
    ∃ e rest r', e ∈ ops ∧
      gen_file_lines 1 [] 2 ⟨fun _ => 0, 0⟩ =
        (fnText (func_name 1 0) e :: rest, r') :=
  ⟨by decide, function0_leaf_from_menu 1 2 ⟨fun _ => 0, 0⟩ (by decide)⟩

/-- C6: the whole run is a pure function of the node count and the seeded
stream, so two runs with identical parameters produce identical contents for
every emitted file, node modules and entry module alike. -/
theorem deterministic (N : Nat) (r1 r2 : RNG) (h : r1 = r2) :
    main N r1 = main N r2 := by
  rw [h]

/-- Witness for C6 at `N = 2`, stream constantly 0. -/
theorem deterministic_witness :
    (⟨fun _ => 0, 0⟩ : RNG) = ⟨fun _ => 0, 0⟩ ∧
    main 2 ⟨fun _ => 0, 0⟩ = main 2 ⟨fun _ => 0, 0⟩ :=
  ⟨rfl, deterministic 2 ⟨fun _ => 0, 0⟩ ⟨fun _ => 0, 0⟩ rfl⟩

/-- C8 counterexample: at `N = 0` the run completes and emits exactly the
entry module, whose text references `files/file_00000.mini` although no such
file is emitted — no diagnostic, no refusal. -/
theorem n0_emits_dangling_entry :
    (main 0 ⟨fun _ => 0, 0⟩).map Prod.fst = ["main.mini"] ∧
    main_content =
      "import \"files/file_00000.mini\" as m0;\n\nfn main() i32 \x7b\n    return m0.func_0_0(1, 2);\n\x7d\n" := by
  exact ⟨rfl, rfl⟩

/-- C8 amended: at `N = 0` the generator emits no node modules and still
silently emits the entry module, whose import target
`files/file_00000.mini` is not among the emitted paths. -/
theorem n0_behavior (r : RNG) :
    main 0 r = [("main.mini", main_content)] ∧
    "files/file_00000.mini" ∉ (main 0 r).map Prod.fst := by
  have h : main 0 r = [("main.mini", main_content)] := rfl
  refine ⟨h, ?_⟩
  rw [h]
  decide

/-- Witness for C8 (amended) at the stream constantly 0. -/
theorem n0_behavior_witness :
    main 0 ⟨fun _ => 0, 0⟩ = [("main.mini", main_content)] ∧
    "files/file_00000.mini" ∉ (main 0 ⟨fun _ => 0, 0⟩).map Prod.fst :=
  n0_behavior ⟨fun _ => 0, 0⟩

/-- C9: the emitted module of node `i` begins with one import declaration per
dependency, in dependency-list order, each binding the dependency's alias
`m<index>` to the dependency's canonical relative file path — both pure
functions of the dependency's index. -/
theorem import_section (N i num_funcs : Nat) (r : RNG) :
    ∃ rest r',
      gen_file_lines i (nodeImports N i) num_funcs r =
        (((deps N i).map fun d =>
            "import \"" ++ fileBasename d ++ "\" as " ++ ("m" ++ toString d)
              ++ ";") ++ rest, r') := by
  refine ⟨(if (nodeImports N i).isEmpty then [] else [""]) ++
      (genFuncs i (nodeImports N i) (List.range num_funcs) r).1,
    (genFuncs i (nodeImports N i) (List.range num_funcs) r).2, ?_⟩
  rw [gen_file_lines]
  simp [nodeImports, importLine, List.map_map, Function.comp]

/-- Decode one decimal digit character onto an accumulator, inverting the
digit emission of `Nat.toDigitsCore`. -/
def decodeStep (a : Nat) (c : Char) : Nat := a * 10 + (c.toNat - 48)

/-- The code of a decimal digit character. -/
theorem digitChar_toNat : ∀ n, n < 10 → (Nat.digitChar n).toNat = 48 + n := by
  decide

/-- Folding `decodeStep` over the digits emitted by `Nat.toDigitsCore`
recovers the encoded number on top of a shifted accumulator. -/
theorem foldl_decode_toDigitsCore (f : Nat) :
    ∀ n ds a, n < f →
      ∃ k, (Nat.toDigitsCore 10 f n ds).foldl decodeStep a =
        ds.foldl decodeStep (a * 10 ^ k + n) := by
  induction f with
  | zero => exact fun n ds a h => absurd h (by omega)
  | succ f ih =>
    intro n ds a h
    by_cases h10 : n / 10 = 0
    · refine ⟨1, ?_⟩
      have hn : n < 10 := by omega
      have hmod : n % 10 = n := Nat.mod_eq_of_lt hn
      simp only [Nat.toDigitsCore, h10, if_true, List.foldl_cons]
      congr 1
      simp [decodeStep, hmod, digitChar_toNat n hn]
    · obtain ⟨k₀, hk₀⟩ := ih (n / 10) (Nat.digitChar (n % 10) :: ds) a (by omega)
      refine ⟨k₀ + 1, ?_⟩
      simp only [Nat.toDigitsCore, h10, if_false]
      rw [hk₀, List.foldl_cons]
      congr 1
      have hm : n % 10 < 10 := Nat.mod_lt _ (by omega)
      simp only [decodeStep, digitChar_toNat (n % 10) hm]
      rw [pow_succ, ← mul_assoc]
      omega

/-- Decoding the decimal representation recovers the number. -/
theorem decode_repr (n : Nat) : (Nat.repr n).data.foldl decodeStep 0 = n := by
  obtain ⟨k, hk⟩ :=
    foldl_decode_toDigitsCore (n + 1) n [] 0 (Nat.lt_succ_self n)
  simpa [Nat.repr, Nat.toDigits, List.asString] using hk

/-- The decimal representation of a natural number is injective. -/
theorem nat_repr_injective : Function.Injective Nat.repr := by
  intro m n h
  have hm := decode_repr m
  rw [h] at hm
  exact hm.symm.trans (decode_repr n)

/-- Alias generation `d ↦ "m" ++ toString d` is injective. -/
theorem mAlias_injective :
    Function.Injective fun d : Nat => "m" ++ toString d := by
  intro a b h
  simp only at h
  apply nat_repr_injective
  have hd : ("m" ++ toString a).data = ("m" ++ toString b).data := by rw [h]
  simp only [String.data_append] at hd
  exact String.ext (List.cons_injective hd)

/-- The dependency list of a node has no duplicates. -/
theorem deps_nodup (N i : Nat) : (deps N i).Nodup := by
  unfold deps
  by_cases h1 : i * 2 + 1 < N <;> by_cases h2 : i * 2 + 2 < N <;>
    simp [h1, h2]

/-- C7: within any single emitted module — any node's module as well as the
entry module — no two import aliases are equal. -/
theorem alias_uniqueness (N i : Nat) :
    ((nodeImports N i).map Import.aliasName).Nodup ∧
    (entryImports.map Import.aliasName).Nodup := by
  constructor
  · have : (nodeImports N i).map Import.aliasName =
        (deps N i).map fun d => "m" ++ toString d := by
      simp [nodeImports, List.map_map]
    rw [this]
    exact (deps_nodup N i).map mAlias_injective
  · simp [entryImports]

end GenTestFiles
